import Mathlib

/-!
# jsau-apiserver: request handlers over JSON-file collections

A shallow embedding of `src/app.js` and `utilities/index.js`.

* The two JSON files and the HTML directory are explicit state (`Env`); every
  handler returns its HTTP response, the favorites file it leaves behind and
  the list of file-system calls it made, in order.
* A request body field is any JSON value (`JsValue`), and so are the
  `username` and `filename` of a record read from the favorites file
  (`Record`); `Favorite` is the record of the data model, with two strings.
* Numbers are doubles: `parseInt` and `JSON.parse` round an integer to the
  nearest double (`roundToDouble`), which changes it from `2 ^ 53` on.
* `String.prototype.toLowerCase` (its Unicode tables are not part of the
  repository) and the answer of Express to `res.download` are parameters of
  the environment.
-/

namespace JsauApiserver

/-! ## Data model -/

/-- A catalog entry of `documents.json`; `id` is the integer written in the
file. -/
structure Document where
  id : Int
  name : String
deriving DecidableEq, Repr

/-- A favorite of the data model. -/
structure Favorite where
  id : Int
  username : String
  filename : String
deriving DecidableEq, Repr

/-- A value as `JSON.parse` yields it. `undefined` stands for a field that is
not there; `number` is a finite number, with `0` for both zeros; `infinity` is
what a literal beyond the doubles, such as `1e999`, is read as; `composite` is
an array or an object, given by the text `JSON.stringify` writes for it. -/
inductive JsValue where
  | undefined
  | null
  | bool (b : Bool)
  | number (x : ℚ)
  | infinity (negative : Bool)
  | string (s : String)
  | composite (json : String)
deriving DecidableEq, Repr

/-- A record as read from `favorites.json`, or as built by `POST /favorites`. -/
structure Record where
  id : Int
  username : JsValue
  filename : JsValue
deriving DecidableEq, Repr

/-- The record that stores a favorite of the data model. -/
def Favorite.record (fav : Favorite) : Record :=
  ⟨fav.id, .string fav.username, .string fav.filename⟩

/-- A number as `parseInt` yields it: `NaN`, a finite integer, or an infinity. -/
inductive JsNumber where
  | nan
  | finite (value : Int)
  | infinity (negative : Bool)
deriving DecidableEq, Repr

/-! ## File system -/

/-- What a failed call throws: `err.code === 'ENOENT'`, another I/O error, or
the `SyntaxError` of `JSON.parse` (which has no `code`). -/
inductive JsError where
  | enoent
  | ioFailure
  | syntaxError
deriving DecidableEq, Repr

/-- Text of a file as `JSON.parse` sees it: rejected, or an array of records. -/
inductive Content (α : Type) where
  | invalid
  | array (rs : List α)
deriving DecidableEq, Repr

/-- A JSON file on disk: missing, present but not readable, or present. -/
inductive File (α : Type) where
  | absent
  | unreadable
  | present (c : Content α)
deriving DecidableEq, Repr

/-- How the next `fs.writeFile` on the favorites file goes: it completes, it
fails before touching the file, or it fails after truncating it. -/
inductive WriteBehaviour where
  | succeeds
  | failsUntouched
  | failsTruncated
deriving DecidableEq, Repr

/-- A file-system call made by a handler. `access name` is
`fs.access(join(htmlDirectory, name))`. -/
inductive FsCall where
  | access (name : String)
  | readDocuments
  | readFavorites
  | writeFavorites (data : List Record)
deriving DecidableEq, Repr

/-! ## Responses -/

/-- Payload of a response: what the handler hands to `res.send` or `res.json`,
the file Express sends as an attachment, or the error page of Express. -/
inductive Payload where
  | text (s : String)
  | error (msg : String)
  | message (msg : String)
  | created (msg : String) (favorite : Record)
  | favorites (rs : List Record)
  | download (name : String)
  | expressError
deriving DecidableEq, Repr

/-- An HTTP response. -/
structure Response where
  status : Nat
  payload : Payload
deriving DecidableEq, Repr

/-- What a handler did: its response, the favorites file afterwards, and the
file-system calls it made. -/
structure Outcome where
  response : Response
  favorites : File Record
  calls : List FsCall
deriving DecidableEq, Repr

/-! ## The environment -/

/-- The world a request runs in. -/
structure Env where
  /-- `String.prototype.toLowerCase`. -/
  toLowerCase : String → String
  /-- Whether `fs.access(join(htmlDirectory, name))` succeeds. -/
  htmlAccess : String → Bool
  /-- What Express answers to `res.download(join(htmlDirectory, name))`. -/
  download : String → Response
  documents : File Document
  favorites : File Record
  write : WriteBehaviour

/-- Body of `fs.readFile(path, 'utf-8')`. -/
def fsReadFile {α : Type} : File α → Except JsError (Content α)
  | .absent => .error .enoent
  | .unreadable => .error .ioFailure
  | .present c => .ok c

/-- Body of `JSON.parse(data)`. -/
def jsonParse {α : Type} : Content α → Except JsError (List α)
  | .invalid => .error .syntaxError
  | .array rs => .ok rs

/-- A value as `JSON.stringify` writes it and `JSON.parse` reads it back: an
infinity is written as `null`, every other value is read back as it was. -/
def stringifyValue : JsValue → JsValue
  | .infinity _ => .null
  | v => v

/-- A record as `JSON.stringify` writes it. -/
def stringifyRecord (r : Record) : Record :=
  ⟨r.id, stringifyValue r.username, stringifyValue r.filename⟩

/-- Body of `fs.writeFile(path, JSON.stringify(data, null, 2))`: the result of
the call and the file afterwards. -/
def fsWriteFile (w : WriteBehaviour) (old : File Record) (data : List Record) :
    Except JsError Unit × File Record :=
  match w with
  | .succeeds => (.ok (), .present (.array (data.map stringifyRecord)))
  | .failsUntouched => (.error .ioFailure, old)
  | .failsTruncated => (.error .ioFailure, .present .invalid)

/-- Utility `readJsonFile` of `utilities/index.js`: read and parse; a missing
file is an empty array, every other error is rethrown. -/
def readJsonFile {α : Type} (file : File α) : Except JsError (List α) :=
  match fsReadFile file >>= jsonParse with
  | .ok data => .ok data
  | .error err => if err = .enoent then .ok [] else .error err

/-- Utility `writeJsonFile` of `utilities/index.js`: write, rethrow on error. -/
def writeJsonFile (w : WriteBehaviour) (old : File Record) (data : List Record) :
    Except JsError Unit × File Record :=
  match fsWriteFile w old data with
  | (.ok (), file) => (.ok (), file)
  | (.error err, file) => (.error err, file)

/-- Utility `fileExists` of `utilities/index.js`: `fs.access` succeeded. -/
def fileExists (env : Env) (name : String) : Bool :=
  env.htmlAccess name

/-! ## JavaScript built-ins used by the handlers -/

/-- ECMAScript `WhiteSpace` and `LineTerminator` code points: what `parseInt`
skips and what `\s` matches. -/
def isWhiteSpace (c : Char) : Bool :=
  c.toNat ∈ [0x09, 0x0A, 0x0B, 0x0C, 0x0D, 0x20, 0xA0, 0x1680, 0x2028, 0x2029,
    0x202F, 0x205F, 0x3000, 0xFEFF] || (0x2000 ≤ c.toNat && c.toNat ≤ 0x200A)

/-- Value of a run of decimal digits. -/
def digitsValue (ds : List Char) : Nat :=
  ds.foldl (fun acc c => 10 * acc + (c.toNat - 48)) 0

/-- Sign step of `parseInt`: a leading `-` or `+` is removed, `-` negates. -/
def splitSign : List Char → Bool × List Char
  | '-' :: rest => (true, rest)
  | '+' :: rest => (false, rest)
  | cs => (false, cs)

/-- The number of low bits of `m` that do not fit the 53 bits of a double:
the least `e`, counted up from the one given, with `m < 2 ^ (53 + e)`. -/
def droppedBits : Nat → Nat → Nat → Nat
  | 0, _, e => e
  | fuel + 1, m, e => if m < 2 ^ (53 + e) then e else droppedBits fuel m (e + 1)

/-- The largest double, `Number.MAX_VALUE`: `(2 ^ 53 - 1) * 2 ^ 971`. -/
def maxDouble : Nat :=
  179769313486231570814527423731704356798070567525844996598917476803157260780028538760589558632766878171540458953514382464234321326889464182768467546703537516986049910576551282076245490090389328944075868508455133942304583236903222948165808559332123348274797826204144723168738177180919299881250404026184124858368

/-- The double nearest to a natural number, ties to the even significand;
`none` when the result is beyond the largest double, that is `Infinity`. -/
def roundToDouble (m : Nat) : Option Nat :=
  if m < 2 ^ 53 then some m
  else
    let e := droppedBits m m 0
    let q := m / 2 ^ e
    let r := m % 2 ^ e
    let up := decide (2 ^ e < 2 * r) || (decide (2 * r = 2 ^ e) && decide (q % 2 = 1))
    let rounded := (if up then q + 1 else q) * 2 ^ e
    if rounded ≤ maxDouble then some rounded else none

/-- The JavaScript number of an integer with the given sign and magnitude. -/
def toNumber (negative : Bool) (magnitude : Nat) : JsNumber :=
  match roundToDouble magnitude with
  | some v => .finite (if negative then -(v : Int) else (v : Int))
  | none => .infinity negative

/-- The number `JSON.parse` reads for an integer written in a file. -/
def jsonNumber (n : Int) : JsNumber :=
  toNumber (decide (n < 0)) n.natAbs

/-- Built-in `parseInt(string, 10)`. Leading white space is skipped, an
optional sign is read, then the longest run of decimal digits; whatever
follows the digits is ignored. No digit gives `NaN`; the digits give the
double nearest to their value. -/
def parseInt (s : String) : JsNumber :=
  let signed := splitSign (s.toList.dropWhile isWhiteSpace)
  let ds := signed.2.takeWhile Char.isDigit
  if ds.isEmpty then .nan else toNumber signed.1 (digitsValue ds)

/-- Scan of the global regular-expression replace `replace(/\s+/g, '_')`:
`inMatch` tells whether the character before belongs to the current match of
`\s+`. A match is extended over every white-space character that follows it
and yields one underscore; any other character is copied. -/
def replaceWhitespaceFrom : Bool → List Char → List Char
  | _, [] => []
  | inMatch, c :: cs =>
    if isWhiteSpace c then
      if inMatch then replaceWhitespaceFrom true cs
      else '_' :: replaceWhitespaceFrom true cs
    else c :: replaceWhitespaceFrom false cs

/-- String method call `name.replace(/\s+/g, '_')`. -/
def replaceWhitespace (name : String) : String :=
  String.mk (replaceWhitespaceFrom false name.toList)

/-- File name of a document in the HTML directory, as built in
`GET /document/:id`. -/
def htmlFileName (env : Env) (doc : Document) : String :=
  env.toLowerCase (replaceWhitespace doc.name) ++ ".html"

/-- Body of `POST /favorites` and `DELETE /favorites` after `express.json()`. -/
structure FavoriteBody where
  username : JsValue
  filename : JsValue
deriving DecidableEq, Repr

/-- JavaScript `!value`: true for a missing field, `null`, `false`, zero and
the empty string. -/
def falsy : JsValue → Bool
  | .undefined => true
  | .null => true
  | .bool b => !b
  | .number x => x == 0
  | .infinity _ => false
  | .string s => s == ""
  | .composite _ => false

/-- JavaScript `stored === sent` for a value read from the favorites file and
a value of the request body: values of one primitive kind are compared, an
array or object of the file is never the array or object of the body. -/
def strictEq : JsValue → JsValue → Bool
  | .undefined, .undefined => true
  | .null, .null => true
  | .bool a, .bool b => a == b
  | .number x, .number y => x == y
  | .infinity a, .infinity b => a == b
  | .string s, .string t => s == t
  | _, _ => false

/-- Callback of `find` and `findIndex` in the favorites handlers. -/
def samePair (username filename : JsValue) (fav : Record) : Bool :=
  strictEq fav.username username && strictEq fav.filename filename

/-! ## Handlers -/

/-- Handler `app.get('/document/:id')`. -/
def getDocument (env : Env) (idParam : String) : Outcome :=
  match parseInt idParam with
  | .nan => ⟨⟨400, .text "Invalid document ID."⟩, env.favorites, []⟩
  | docId =>
    match readJsonFile env.documents with
    | .error _ => ⟨⟨500, .text "Internal server error."⟩, env.favorites, [.readDocuments]⟩
    | .ok docs =>
      match docs.find? (fun u => jsonNumber u.id == docId) with
      | none => ⟨⟨404, .text "Document not found."⟩, env.favorites, [.readDocuments]⟩
      | some doc =>
        if fileExists env (htmlFileName env doc) then
          ⟨env.download (htmlFileName env doc), env.favorites,
            [.readDocuments, .access (htmlFileName env doc)]⟩
        else
          ⟨⟨404, .text "HTML file not found for the provided document."⟩, env.favorites,
            [.readDocuments, .access (htmlFileName env doc)]⟩

/-- Handler `app.post('/favorites')`. A `filename` that is not a string makes
`join` throw, which Express answers with its error page and status 500. -/
def postFavorites (env : Env) (body : FavoriteBody) : Outcome :=
  if falsy body.username || falsy body.filename then
    ⟨⟨400, .error "Username and filename are required."⟩, env.favorites, []⟩
  else
    match body.filename with
    | .string filename =>
      if !env.htmlAccess filename then
        ⟨⟨404, .error "File does not exist."⟩, env.favorites, [.access filename]⟩
      else
        match fsReadFile env.favorites with
        | .error _ =>
          ⟨⟨500, .error "Error reading favorites file."⟩, env.favorites,
            [.access filename, .readFavorites]⟩
        | .ok data =>
          match jsonParse data with
          | .error _ =>
            ⟨⟨500, .error "Error parsing favorites data."⟩, env.favorites,
              [.access filename, .readFavorites]⟩
          | .ok favorites =>
            match favorites.find? (samePair body.username body.filename) with
            | some _ =>
              ⟨⟨409, .error "This favorite already exists."⟩, env.favorites,
                [.access filename, .readFavorites]⟩
            | none =>
              let newFavorite : Record := ⟨favorites.length + 1, body.username, body.filename⟩
              let pushed := favorites ++ [newFavorite]
              match fsWriteFile env.write env.favorites pushed with
              | (.error _, file) =>
                ⟨⟨500, .error "An error occurred while writing the favorites file."⟩, file,
                  [.access filename, .readFavorites, .writeFavorites pushed]⟩
              | (.ok (), file) =>
                ⟨⟨201, .created "Favorite added successfully!" newFavorite⟩, file,
                  [.access filename, .readFavorites, .writeFavorites pushed]⟩
    | _ => ⟨⟨500, .expressError⟩, env.favorites, []⟩

/-- Handler `app.get('/favorites/:username')`. -/
def getFavorites (env : Env) (username : String) : Outcome :=
  match readJsonFile env.favorites with
  | .ok favorites =>
    let userFavorites := favorites.filter (fun fav => strictEq fav.username (.string username))
    if userFavorites.length = 0 then
      ⟨⟨404, .message ("No favorites found for user: " ++ username)⟩, env.favorites,
        [.readFavorites]⟩
    else
      ⟨⟨200, .favorites userFavorites⟩, env.favorites, [.readFavorites]⟩
  | .error _ =>
    ⟨⟨500, .error "An error occurred while retrieving favorites."⟩, env.favorites,
      [.readFavorites]⟩

/-- Handler `app.delete('/favorites')`. -/
def deleteFavorites (env : Env) (body : FavoriteBody) : Outcome :=
  if falsy body.username || falsy body.filename then
    ⟨⟨400, .error "Username and filename are required."⟩, env.favorites, []⟩
  else
    match readJsonFile env.favorites with
    | .error _ =>
      ⟨⟨500, .error "An error occurred while deleting the favorite."⟩, env.favorites,
        [.readFavorites]⟩
    | .ok favorites =>
      match favorites.findIdx? (samePair body.username body.filename) with
      | none => ⟨⟨404, .error "Favorite not found."⟩, env.favorites, [.readFavorites]⟩
      | some index =>
        let spliced := favorites.eraseIdx index
        match writeJsonFile env.write env.favorites spliced with
        | (.error _, file) =>
          ⟨⟨500, .error "An error occurred while deleting the favorite."⟩, file,
            [.readFavorites, .writeFavorites spliced]⟩
        | (.ok (), file) =>
          ⟨⟨200, .message "Favorite deleted successfully."⟩, file,
            [.readFavorites, .writeFavorites spliced]⟩

/-- A request to one of the three favorites routes. -/
inductive Request where
  | post (body : FavoriteBody)
  | delete (body : FavoriteBody)
  | get (username : String)
deriving DecidableEq, Repr

/-- Dispatch of a favorites request to its handler. -/
def handle (env : Env) : Request → Outcome
  | .post body => postFavorites env body
  | .delete body => deleteFavorites env body
  | .get username => getFavorites env username

/-- The environment the next request sees: the favorites file is the one the
previous handler left, the next write behaves as `w`. -/
def Env.after (env : Env) (out : Outcome) (w : WriteBehaviour) : Env :=
  { env with favorites := out.favorites, write := w }

/-! ## Notions of the specification -/

/-- No two records share the same `(username, filename)` pair. -/
def UniquePairs (rs : List Record) : Prop :=
  (rs.map (fun r => (r.username, r.filename))).Nodup

instance (rs : List Record) : Decidable (UniquePairs rs) := by
  unfold UniquePairs; infer_instance

/-- The uniqueness invariant on the favorites file: whenever it holds a
collection, that collection has unique pairs. -/
def StoreUnique (file : File Record) : Prop :=
  ∀ rs, file = .present (.array rs) → UniquePairs rs

/-- The favorites file is one of the data model: whenever it holds a
collection, its records are favorites, with a string for `username` and for
`filename`. -/
def StoreTyped (file : File Record) : Prop :=
  ∀ rs, file = .present (.array rs) → ∃ favs : List Favorite, rs = favs.map Favorite.record

/-- A body field is lacking: it is missing, `null`, `false`, zero or the empty
string. -/
def Lacking (v : JsValue) : Prop :=
  v = .undefined ∨ v = .null ∨ v = .bool false ∨ v = .number 0 ∨ v = .string ""

/-- A body field is a string. -/
def IsText (v : JsValue) : Prop :=
  ∃ s, v = .string s

/-- The `username` of a `POST /favorites` body is a string or is lacking; no
condition on the other requests. -/
def TextUsername : Request → Prop
  | .post body => IsText body.username ∨ Lacking body.username
  | _ => True

/-- A favorite matches the pair `(username, filename)` exactly. -/
def Matches (username filename : String) (r : Favorite) : Prop :=
  r.username = username ∧ r.filename = filename

instance (u f : String) (r : Favorite) : Decidable (Matches u f r) := by
  unfold Matches; infer_instance

/-- A run that consists of white space becomes a single underscore, any other
run stays as it is. -/
def underscoreRun (run : List Char) : List Char :=
  if run.all isWhiteSpace then ['_'] else run

/-- The wording of the specification for the file name: split the name into
maximal runs of white-space and of other characters, replace every run of
white space by a single underscore, and put the runs back together. -/
def collapseRuns (name : String) : String :=
  String.mk (((name.toList.splitBy (fun a b => isWhiteSpace a == isWhiteSpace b)).map
    underscoreRun).flatten)

/-- Decimal representation of an integer: its digits in base ten, most
significant first, after a minus sign when it is negative. -/
def decimal : Int → String
  | .ofNat m => String.mk (Nat.toDigits 10 m)
  | .negSucc m => String.mk ('-' :: Nat.toDigits 10 (m + 1))

/-- ASCII lower-casing, which is what `toLowerCase` does on ASCII text. -/
def asciiLower (s : String) : String :=
  String.mk (s.toList.map Char.toLower)

/-- The last component of a path: what follows its last `/`. -/
def baseName (name : String) : List Char :=
  (name.toList.reverse.takeWhile (fun c => c != '/')).reverse

/-- Express `res.download` with its default options on a file that exists: a
dot file (the last component of its path starts with a dot) is not served and
the answer is 404; any other file is sent as an attachment with status 200. -/
def expressDownload (name : String) : Response :=
  if (baseName name).head? == some '.' then ⟨404, .expressError⟩ else ⟨200, .download name⟩

/-- The scenario of the specification: the catalog holds `Doc One` under
id 1, the HTML directory holds `doc_one.html` only, and the favorites file is
the one given; text is ASCII, Express serves as `expressDownload` and writes
go through. -/
def scenario (favorites : File Record) : Env :=
  ⟨asciiLower, fun name => name == "doc_one.html", expressDownload,
    .present (.array [⟨1, "Doc One"⟩]), favorites, .succeeds⟩

/-- The scenario with a favorites file that can be read but not written:
every write fails and leaves the file as it is. -/
def readOnly (favorites : File Record) : Env :=
  { scenario favorites with write := .failsUntouched }

/-- The scenario with another catalog, in which every HTML file exists. -/
def library (documents : List Document) : Env :=
  ⟨asciiLower, fun _ => true, expressDownload, .present (.array documents), .absent, .succeeds⟩

/-- A favorite of the scenario: bob has `doc_one.html`. -/
def bobsFavorite : Favorite := ⟨1, "bob", "doc_one.html"⟩

/-- A favorites file that holds the given favorites of the data model. -/
def fileOf (favs : List Favorite) : File Record :=
  .present (.array (favs.map Favorite.record))

/-- A body with a string for `username` and for `filename`. -/
def textBody (username filename : String) : FavoriteBody :=
  ⟨.string username, .string filename⟩

/-! ## Basic facts about the handlers' tests -/

theorem strictEq_string (a : JsValue) (s : String) :
    strictEq a (.string s) = true ↔ a = .string s := by
  cases a <;> simp [strictEq]

theorem samePair_record (u f : String) (r : Favorite) :
    samePair (.string u) (.string f) r.record = true ↔ Matches u f r := by
  simp [samePair, Favorite.record, strictEq, Matches]

theorem falsy_string {s : String} (h : s ≠ "") : falsy (.string s) = false := by
  simp [falsy, h]

theorem falsy_iff_lacking (v : JsValue) : falsy v = true ↔ Lacking v := by
  cases v <;> simp [falsy, Lacking]

theorem stringifyRecord_record (fav : Favorite) : stringifyRecord fav.record = fav.record := rfl

theorem map_stringifyRecord (favs : List Favorite) :
    (favs.map Favorite.record).map stringifyRecord = favs.map Favorite.record := by
  rw [List.map_map]
  exact List.map_congr_left (fun fav _ => stringifyRecord_record fav)

theorem find?_samePair_none {u f : String} {rs : List Favorite}
    (h : ∀ r ∈ rs, ¬ Matches u f r) :
    (rs.map Favorite.record).find? (samePair (.string u) (.string f)) = none := by
  rw [List.find?_eq_none]
  intro r hr
  obtain ⟨fav, hfav, rfl⟩ := List.mem_map.mp hr
  rw [samePair_record]
  exact h fav hfav

theorem findIdx?_samePair_none {u f : String} {rs : List Favorite}
    (h : ∀ r ∈ rs, ¬ Matches u f r) :
    (rs.map Favorite.record).findIdx? (samePair (.string u) (.string f)) = none := by
  rw [List.findIdx?_eq_none_iff]
  intro r hr
  obtain ⟨fav, hfav, rfl⟩ := List.mem_map.mp hr
  have := h fav hfav
  rw [← samePair_record] at this
  simpa using this

theorem eraseIdx_map {α β : Type} (g : α → β) (l : List α) :
    ∀ i, (l.map g).eraseIdx i = (l.eraseIdx i).map g := by
  induction l with
  | nil => intro i; rfl
  | cons a l ih =>
    intro i
    cases i with
    | zero => rfl
    | succ i => simp [List.eraseIdx, ih i]

/-- Where `findIndex` lands: the list splits around the first element that
satisfies the test, and `splice(index, 1)` removes exactly that element. -/
theorem findIdx?_split {α : Type} (p : α → Bool) (rs : List α) (h : ∃ r ∈ rs, p r = true) :
    ∃ before target after, rs = before ++ target :: after ∧ p target = true ∧
      (∀ r ∈ before, p r = false) ∧ rs.findIdx? p = some before.length ∧
      rs.eraseIdx before.length = before ++ after := by
  induction rs with
  | nil => simp at h
  | cons a rest ih =>
    by_cases ha : p a = true
    · exact ⟨[], a, rest, rfl, ha, by simp, by simp [List.findIdx?_cons, ha], rfl⟩
    · have hrest : ∃ r ∈ rest, p r = true := by
        obtain ⟨r, hr, hp⟩ := h
        rcases List.mem_cons.mp hr with rfl | hr
        · exact absurd hp ha
        · exact ⟨r, hr, hp⟩
      obtain ⟨before, target, after, hsplit, htarget, hbefore, hidx, herase⟩ := ih hrest
      refine ⟨a :: before, target, after, by simp [hsplit], htarget, ?_, ?_, ?_⟩
      · intro r hr
        rcases List.mem_cons.mp hr with rfl | hr
        · simpa using ha
        · exact hbefore r hr
      · simp [List.findIdx?_cons, ha, hidx]
      · simp [herase]

/-! ## Rounding to doubles -/

theorem roundToDouble_small {m : Nat} (h : m < 2 ^ 53) : roundToDouble m = some m := by
  unfold roundToDouble
  rw [if_pos h]

/-- The search of `droppedBits` ends on the exponent of the leading bit. -/
theorem droppedBits_spec (m : Nat) : ∀ (fuel e : Nat), m < 2 ^ (53 + e + fuel) →
    (e = 0 ∨ 2 ^ (52 + e) ≤ m) →
    m < 2 ^ (53 + droppedBits fuel m e) ∧
      (droppedBits fuel m e = 0 ∨ 2 ^ (52 + droppedBits fuel m e) ≤ m) := by
  intro fuel
  induction fuel with
  | zero =>
    intro e hlt hge
    simpa [droppedBits] using And.intro hlt hge
  | succ fuel ih =>
    intro e hlt hge
    by_cases hm : m < 2 ^ (53 + e)
    · simpa [droppedBits, hm] using And.intro hm hge
    · simp only [droppedBits, hm, if_false]
      apply ih (e + 1)
      · have : 53 + (e + 1) + fuel = 53 + e + (fuel + 1) := by omega
        rw [this]
        exact hlt
      · right
        have : 52 + (e + 1) = 53 + e := by omega
        rw [this]
        exact Nat.le_of_not_lt hm

/-- From `2 ^ 53` on, a number rounds to a double that is at least `2 ^ 53`. -/
theorem roundToDouble_large {m v : Nat} (h : 2 ^ 53 ≤ m) (hv : roundToDouble m = some v) :
    2 ^ 53 ≤ v := by
  obtain ⟨hupper, hlow⟩ := droppedBits_spec m m 0
    (Nat.lt_of_lt_of_le (Nat.lt_two_pow m) (Nat.pow_le_pow_right (by norm_num) (by omega)))
    (Or.inl rfl)
  have hnot : ¬ m < 2 ^ 53 := Nat.not_lt.mpr h
  unfold roundToDouble at hv
  rw [if_neg hnot] at hv
  simp only at hv
  generalize droppedBits m m 0 = e at hv hupper hlow
  have he : 1 ≤ e := by
    rcases Nat.eq_zero_or_pos e with h0 | hpos
    · rw [h0] at hupper
      exact absurd hupper hnot
    · exact hpos
  have hlow2 : 2 ^ (52 + e) ≤ m := by
    rcases hlow with h0 | hge
    · omega
    · exact hge
  have hq : 2 ^ 52 ≤ m / 2 ^ e := by
    rw [Nat.le_div_iff_mul_le (Nat.two_pow_pos _), ← Nat.pow_add]
    exact hlow2
  generalize (decide (2 ^ e < 2 * (m % 2 ^ e)) ||
    (decide (2 * (m % 2 ^ e) = 2 ^ e) && decide (m / 2 ^ e % 2 = 1))) = up at hv
  have hq2 : 2 ^ 52 ≤ (if up = true then m / 2 ^ e + 1 else m / 2 ^ e) := by
    split <;> omega
  generalize (if up = true then m / 2 ^ e + 1 else m / 2 ^ e) = q at hv hq2
  by_cases hmax : q * 2 ^ e ≤ maxDouble
  · rw [if_pos hmax] at hv
    simp only [Option.some.injEq] at hv
    rw [← hv]
    calc 2 ^ 53 = 2 ^ 52 * 2 ^ 1 := by norm_num
      _ ≤ 2 ^ 52 * 2 ^ e := Nat.mul_le_mul_left _ (Nat.pow_le_pow_right (by norm_num) he)
      _ ≤ q * 2 ^ e := Nat.mul_le_mul_right _ hq2
  · rw [if_neg hmax] at hv
    exact absurd hv (by simp)

theorem jsonNumber_safe {d : Int} (h : d.natAbs < 2 ^ 53) : jsonNumber d = .finite d := by
  unfold jsonNumber toNumber
  rw [roundToDouble_small h]
  by_cases hneg : d < 0
  · simp only [hneg, decide_True, if_true]
    congr 1
    omega
  · simp only [hneg, decide_False, Bool.false_eq_true, if_false]
    congr 1
    omega

/-- An integer written in the catalog is read as a safe integer only when it
is that integer. -/
theorem jsonNumber_eq_safe {k d : Int} (h : d.natAbs < 2 ^ 53)
    (heq : jsonNumber k = .finite d) : k = d := by
  by_cases hk : k.natAbs < 2 ^ 53
  · rw [jsonNumber_safe hk] at heq
    exact JsNumber.finite.inj heq
  · exfalso
    unfold jsonNumber toNumber at heq
    cases hr : roundToDouble k.natAbs with
    | none => rw [hr] at heq; exact JsNumber.noConfusion heq
    | some v =>
      rw [hr] at heq
      have hv := roundToDouble_large (Nat.le_of_not_lt hk) hr
      have hd := JsNumber.finite.inj heq
      split at hd <;> omega

/-! ## `parseInt` on decimal representations -/

theorem isDigit_bounds {c : Char} (h : c.isDigit = true) : 48 ≤ c.toNat ∧ c.toNat ≤ 57 := by
  simp only [Char.isDigit, Bool.and_eq_true, decide_eq_true_eq] at h
  exact ⟨h.1, h.2⟩

theorem isDigit_not_whiteSpace {c : Char} (h : c.isDigit = true) : isWhiteSpace c = false := by
  have hb := isDigit_bounds h
  simp only [isWhiteSpace, Bool.or_eq_false_iff, decide_eq_false_iff_not, Bool.and_eq_false_iff,
    List.mem_cons, List.mem_singleton, List.not_mem_nil, or_false]
  omega

theorem digitChar_spec (k : Nat) (h : k < 10) :
    (Nat.digitChar k).isDigit = true ∧ (Nat.digitChar k).toNat - 48 = k := by
  interval_cases k <;> decide

theorem digitsValue_append (pre : List Char) (d : Char) :
    digitsValue (pre ++ [d]) = 10 * digitsValue pre + (d.toNat - 48) := by
  simp [digitsValue, List.foldl_append]

theorem toDigitsCore_spec (fuel : Nat) : ∀ (n : Nat) (ds : List Char), n < fuel →
    ∃ pre, Nat.toDigitsCore 10 fuel n ds = pre ++ ds ∧ pre ≠ [] ∧
      (∀ c ∈ pre, c.isDigit = true) ∧ digitsValue pre = n := by
  induction fuel with
  | zero => intro n ds h; omega
  | succ fuel ih =>
    intro n ds h
    have hd := digitChar_spec (n % 10) (Nat.mod_lt n (by norm_num))
    by_cases h0 : n / 10 = 0
    · refine ⟨[Nat.digitChar (n % 10)], by simp [Nat.toDigitsCore, h0], by simp, ?_, ?_⟩
      · intro c hc
        rw [List.mem_singleton.mp hc]
        exact hd.1
      · have : digitsValue [Nat.digitChar (n % 10)] = (Nat.digitChar (n % 10)).toNat - 48 := by
          simp [digitsValue]
        rw [this, hd.2]
        omega
    · have hlt : n / 10 < fuel := by omega
      obtain ⟨pre, hpre, _, hall, hval⟩ := ih (n / 10) (Nat.digitChar (n % 10) :: ds) hlt
      refine ⟨pre ++ [Nat.digitChar (n % 10)], by simp [Nat.toDigitsCore, h0, hpre], by simp,
        ?_, ?_⟩
      · intro c hc
        rcases List.mem_append.mp hc with hc | hc
        · exact hall c hc
        · rw [List.mem_singleton.mp hc]
          exact hd.1
      · rw [digitsValue_append, hval, hd.2]
        omega

theorem toDigits_spec (n : Nat) :
    Nat.toDigits 10 n ≠ [] ∧ (∀ c ∈ Nat.toDigits 10 n, c.isDigit = true) ∧
      digitsValue (Nat.toDigits 10 n) = n := by
  obtain ⟨pre, hpre, hne, hall, hval⟩ := toDigitsCore_spec (n + 1) n [] (Nat.lt_succ_self n)
  have : Nat.toDigits 10 n = pre := by simp [Nat.toDigits, hpre]
  rw [this]
  exact ⟨hne, hall, hval⟩

theorem splitSign_digit {c : Char} (cs : List Char) (h : c.isDigit = true) :
    splitSign (c :: cs) = (false, c :: cs) := by
  have hb := isDigit_bounds h
  unfold splitSign
  split
  · rename_i heq
    simp only [List.cons.injEq] at heq
    rw [heq.1] at hb
    exact absurd hb (by decide)
  · rename_i heq
    simp only [List.cons.injEq] at heq
    rw [heq.1] at hb
    exact absurd hb (by decide)
  · rfl

theorem parseInt_digits (neg : Bool) (ds : List Char) (hne : ds ≠ [])
    (hall : ∀ c ∈ ds, c.isDigit = true) :
    parseInt (String.mk (if neg then '-' :: ds else ds)) = toNumber neg (digitsValue ds) := by
  obtain ⟨c, cs, rfl⟩ := List.exists_cons_of_ne_nil hne
  have hc := hall c (List.mem_cons_self c cs)
  have htake : (c :: cs).takeWhile Char.isDigit = c :: cs := by
    rw [List.takeWhile_eq_self_iff]
    exact hall
  cases neg with
  | false =>
    simp only [parseInt, Bool.false_eq_true, if_false, String.toList]
    rw [List.dropWhile_cons_of_neg (by simp [isDigit_not_whiteSpace hc]), splitSign_digit cs hc]
    simp [htake]
  | true =>
    simp only [parseInt, if_true, String.toList]
    rw [List.dropWhile_cons_of_neg (by decide)]
    simp [splitSign, htake]

/-- On the decimal representation of an integer, `parseInt` yields the number
`JSON.parse` reads for that integer. -/
theorem parseInt_decimal (n : Int) : parseInt (decimal n) = jsonNumber n := by
  cases n with
  | ofNat m =>
    obtain ⟨hne, hall, hval⟩ := toDigits_spec m
    have := parseInt_digits false (Nat.toDigits 10 m) hne hall
    simp only [Bool.false_eq_true, if_false] at this
    have hnn : ¬ ((m : Int) < 0) := by omega
    simp [decimal, this, hval, jsonNumber, hnn]
  | negSucc m =>
    obtain ⟨hne, hall, hval⟩ := toDigits_spec (m + 1)
    have := parseInt_digits true (Nat.toDigits 10 (m + 1)) hne hall
    simp only [if_true] at this
    simp [decimal, this, hval, jsonNumber, Int.negSucc_lt_zero]

/-- On the decimal representation of a safe integer, `parseInt` yields that
integer. -/
theorem parseInt_decimal_safe {n : Int} (h : n.natAbs < 2 ^ 53) :
    parseInt (decimal n) = .finite n := by
  rw [parseInt_decimal, jsonNumber_safe h]

/-! ## The regular-expression scan against the wording "maximal runs" -/

theorem splitBy_loop_acc {α : Type} (R : α → α → Bool) (l : List α) :
    ∀ (a : α) (g : List α) (gs : List (List α)),
      List.splitBy.loop R l a g gs = gs.reverse ++ List.splitBy.loop R l a g [] := by
  induction l with
  | nil => intro a g gs; simp [List.splitBy.loop]
  | cons b l ih =>
    intro a g gs
    cases hR : R a b with
    | true => simp only [List.splitBy.loop, hR]; exact ih b (a :: g) gs
    | false =>
      simp only [List.splitBy.loop, hR]
      rw [ih b [] ((a :: g).reverse :: gs), ih b [] [(a :: g).reverse]]
      simp

theorem underscoreRun_whiteSpace {a : Char} {g : List Char} (ha : isWhiteSpace a = true)
    (hg : ∀ x ∈ g, isWhiteSpace x = isWhiteSpace a) :
    underscoreRun (a :: g).reverse = ['_'] := by
  have hall : ((a :: g).reverse.all isWhiteSpace) = true := by
    rw [List.all_eq_true]
    intro x hx
    rcases List.mem_cons.mp (List.mem_reverse.mp hx) with rfl | hx
    · exact ha
    · rw [hg x hx, ha]
  simp only [underscoreRun, hall, if_true]

theorem underscoreRun_other {a : Char} (g : List Char) (ha : isWhiteSpace a = false) :
    underscoreRun (a :: g).reverse = (a :: g).reverse := by
  have hall : ((a :: g).reverse.all isWhiteSpace) = false := by
    rw [List.all_eq_false]
    exact ⟨a, List.mem_reverse.mpr (List.mem_cons_self a g), by simp [ha]⟩
  simp only [underscoreRun, hall, Bool.false_eq_true, if_false]

theorem collapse_loop (l : List Char) :
    ∀ (a : Char) (g : List Char), (∀ x ∈ g, isWhiteSpace x = isWhiteSpace a) →
      ((List.splitBy.loop (fun a b => isWhiteSpace a == isWhiteSpace b) l a g []).map
          underscoreRun).flatten =
        if isWhiteSpace a then '_' :: replaceWhitespaceFrom true l
        else g.reverse ++ a :: replaceWhitespaceFrom false l := by
  induction l with
  | nil =>
    intro a g hg
    cases ha : isWhiteSpace a with
    | true =>
      simp only [List.splitBy.loop, List.reverse_cons, List.reverse_nil, List.nil_append,
        List.map_cons, List.map_nil, List.flatten_cons, List.flatten_nil, List.append_nil,
        if_true, replaceWhitespaceFrom]
      rw [← List.reverse_cons]
      exact underscoreRun_whiteSpace ha hg
    | false =>
      simp only [List.splitBy.loop, List.reverse_cons, List.reverse_nil, List.nil_append,
        List.map_cons, List.map_nil, List.flatten_cons, List.flatten_nil, List.append_nil,
        Bool.false_eq_true, if_false, replaceWhitespaceFrom]
      rw [← List.reverse_cons]
      exact underscoreRun_other g ha
  | cons b l ih =>
    intro a g hg
    have hg2 : isWhiteSpace a = isWhiteSpace b → ∀ x ∈ a :: g, isWhiteSpace x = isWhiteSpace b := by
      intro hab x hx
      rcases List.mem_cons.mp hx with rfl | hx
      · exact hab
      · rw [hg x hx, hab]
    cases ha : isWhiteSpace a with
    | true =>
      cases hb : isWhiteSpace b with
      | true =>
        have := ih b (a :: g) (hg2 (by rw [ha, hb]))
        simp only [hb, if_true] at this
        simp only [List.splitBy.loop, ha, hb, beq_self_eq_true, if_true, replaceWhitespaceFrom]
        exact this
      | false =>
        have := ih b [] (by simp)
        simp only [hb, Bool.false_eq_true, if_false, List.reverse_nil, List.nil_append] at this
        have hR : (true == false) = false := rfl
        simp only [List.splitBy.loop, ha, hb, hR, if_true, replaceWhitespaceFrom,
          Bool.false_eq_true, if_false]
        rw [splitBy_loop_acc, List.reverse_singleton, List.map_append, List.flatten_append, this,
          List.map_singleton, List.flatten_singleton, underscoreRun_whiteSpace ha hg]
        rfl
    | false =>
      cases hb : isWhiteSpace b with
      | true =>
        have := ih b [] (by simp)
        simp only [hb, if_true] at this
        have hR : (false == true) = false := rfl
        simp only [List.splitBy.loop, ha, hb, hR, if_true, replaceWhitespaceFrom,
          Bool.false_eq_true, if_false]
        rw [splitBy_loop_acc, List.reverse_singleton, List.map_append, List.flatten_append, this,
          List.map_singleton, List.flatten_singleton, underscoreRun_other g ha]
        simp
      | false =>
        have := ih b (a :: g) (hg2 (by rw [ha, hb]))
        simp only [hb, Bool.false_eq_true, if_false] at this
        simp only [List.splitBy.loop, ha, hb, beq_self_eq_true, replaceWhitespaceFrom,
          Bool.false_eq_true, if_false]
        rw [this]
        simp

theorem replaceWhitespace_eq_collapseRuns (name : String) :
    replaceWhitespace name = collapseRuns name := by
  unfold replaceWhitespace collapseRuns
  congr 1
  cases hl : name.toList with
  | nil => simp [replaceWhitespaceFrom, List.splitBy]
  | cons a l =>
    have := collapse_loop l a [] (by simp)
    simp only [List.splitBy]
    rw [this]
    cases ha : isWhiteSpace a <;> simp [replaceWhitespaceFrom, ha]

/-! ## The favorites handlers and the uniqueness of pairs -/

theorem uniquePairs_push {rs : List Record} {u f : String} (i : Int)
    (h : UniquePairs rs) (hnew : rs.find? (samePair (.string u) (.string f)) = none) :
    UniquePairs (rs ++ [⟨i, .string u, .string f⟩]) := by
  unfold UniquePairs at *
  rw [List.map_append, List.nodup_append]
  refine ⟨h, by simp, ?_⟩
  rw [List.find?_eq_none] at hnew
  intro p hp hq
  simp only [List.map_cons, List.map_nil, List.mem_singleton] at hq
  obtain ⟨r, hr, rfl⟩ := List.mem_map.mp hp
  apply hnew r hr
  simp only [Prod.mk.injEq] at hq
  simp [samePair, hq.1, hq.2, strictEq]

theorem uniquePairs_splice {rs : List Record} (i : Nat) (h : UniquePairs rs) :
    UniquePairs (rs.eraseIdx i) := by
  unfold UniquePairs at *
  exact h.sublist ((List.eraseIdx_sublist rs i).map _)

/-- A write of favorites of the data model with unique pairs leaves a file of
the data model with unique pairs, however the write goes. -/
theorem store_write {old : File Record} (favs : List Favorite) (w : WriteBehaviour)
    (hold : StoreTyped old ∧ StoreUnique old) (hdata : UniquePairs (favs.map Favorite.record)) :
    StoreTyped (fsWriteFile w old (favs.map Favorite.record)).2 ∧
      StoreUnique (fsWriteFile w old (favs.map Favorite.record)).2 := by
  cases w
  · constructor
    · intro rs hrs
      simp only [fsWriteFile, File.present.injEq, Content.array.injEq] at hrs
      exact ⟨favs, by rw [← hrs, map_stringifyRecord]⟩
    · intro rs hrs
      simp only [fsWriteFile, File.present.injEq, Content.array.injEq] at hrs
      rw [← hrs, map_stringifyRecord]
      exact hdata
  · exact hold
  · constructor <;> intro rs hrs <;> simp [fsWriteFile] at hrs

/-- What `readJsonFile` loads from a favorites file of the data model with
unique pairs. -/
theorem readJsonFile_store {file : File Record} {rs : List Record}
    (h : readJsonFile file = .ok rs) (hfile : StoreTyped file ∧ StoreUnique file) :
    (∃ favs : List Favorite, rs = favs.map Favorite.record) ∧ UniquePairs rs := by
  cases file with
  | absent =>
    simp [readJsonFile, fsReadFile, bind, Except.bind] at h
    subst h
    exact ⟨⟨[], rfl⟩, by simp [UniquePairs]⟩
  | unreadable => simp [readJsonFile, fsReadFile, bind, Except.bind] at h
  | present c =>
    cases c with
    | invalid => simp [readJsonFile, fsReadFile, jsonParse, bind, Except.bind] at h
    | array data =>
      simp [readJsonFile, fsReadFile, jsonParse, bind, Except.bind] at h
      subst h
      exact ⟨hfile.1 data rfl, hfile.2 data rfl⟩

theorem postFavorites_keeps_store (env : Env) (body : FavoriteBody)
    (htext : IsText body.username ∨ Lacking body.username)
    (h : StoreTyped env.favorites ∧ StoreUnique env.favorites) :
    StoreTyped (postFavorites env body).favorites ∧
      StoreUnique (postFavorites env body).favorites := by
  obtain ⟨username, filename⟩ := body
  unfold postFavorites
  split
  · exact h
  · rename_i hfalsy
    simp only [Bool.or_eq_true, not_or, Bool.not_eq_true] at hfalsy
    have hu : ∃ u, username = .string u := by
      rcases htext with ht | hl
      · exact ht
      · rw [(falsy_iff_lacking _).mpr hl] at hfalsy
        exact absurd hfalsy.1 (by simp)
    obtain ⟨u, rfl⟩ := hu
    split
    · rename_i f hf
      simp only at hf
      subst hf
      split
      · exact h
      · split
        · exact h
        · rename_i data hdata
          split
          · exact h
          · rename_i favorites hfav
            split
            · exact h
            · rename_i hnone
              simp only at hnone
              have hstore : env.favorites = .present (.array favorites) := by
                cases hfile : env.favorites with
                | absent => simp [hfile, fsReadFile] at hdata
                | unreadable => simp [hfile, fsReadFile] at hdata
                | present c =>
                  simp only [hfile, fsReadFile, Except.ok.injEq] at hdata
                  subst hdata
                  cases c with
                  | invalid => simp [jsonParse] at hfav
                  | array rs =>
                    simp only [jsonParse, Except.ok.injEq] at hfav
                    rw [hfav]
              obtain ⟨favs, hfavs⟩ := h.1 favorites hstore
              have hpush := uniquePairs_push (↑favorites.length + 1) (h.2 favorites hstore) hnone
              have hlist : favorites ++
                  [(⟨↑favorites.length + 1, .string u, .string f⟩ : Record)] =
                  (favs ++ [(⟨↑favorites.length + 1, u, f⟩ : Favorite)]).map Favorite.record := by
                rw [hfavs]
                simp [Favorite.record]
              rw [hlist] at hpush
              have hwrite := store_write (favs ++ [⟨↑favorites.length + 1, u, f⟩]) env.write h hpush
              rw [← hlist] at hwrite
              simp only
              split
              · rename_i heq
                rw [heq] at hwrite
                exact hwrite
              · rename_i heq
                rw [heq] at hwrite
                exact hwrite
    · exact h

theorem deleteFavorites_keeps_store (env : Env) (body : FavoriteBody)
    (h : StoreTyped env.favorites ∧ StoreUnique env.favorites) :
    StoreTyped (deleteFavorites env body).favorites ∧
      StoreUnique (deleteFavorites env body).favorites := by
  unfold deleteFavorites
  split
  · exact h
  · split
    · exact h
    · rename_i favorites hread
      split
      · exact h
      · rename_i index hidx
        obtain ⟨⟨favs, hfavs⟩, huniq⟩ := readJsonFile_store hread h
        have hlist : favorites.eraseIdx index = (favs.eraseIdx index).map Favorite.record := by
          rw [hfavs, eraseIdx_map]
        have hspliced := uniquePairs_splice index huniq
        rw [hlist] at hspliced
        have hwrite := store_write (favs.eraseIdx index) env.write h hspliced
        rw [← hlist] at hwrite
        simp only [writeJsonFile]
        cases hw : fsWriteFile env.write env.favorites (favorites.eraseIdx index) with
        | mk res file =>
          rw [hw] at hwrite
          cases res with
          | error e => exact hwrite
          | ok v => exact hwrite

theorem getFavorites_keeps_file (env : Env) (username : String) :
    (getFavorites env username).favorites = env.favorites := by
  unfold getFavorites
  split
  · simp only
    split <;> rfl
  · rfl

theorem postFavorites_fresh (env : Env) (u f : String) (rs : List Favorite)
    (hu : u ≠ "") (hf : f ≠ "") (hfile : env.htmlAccess f = true)
    (hstore : env.favorites = .present (.array (rs.map Favorite.record)))
    (hnew : ∀ r ∈ rs, ¬ Matches u f r) (hw : env.write = .succeeds) :
    postFavorites env ⟨.string u, .string f⟩ =
      ⟨⟨201, .created "Favorite added successfully!"
          (Favorite.record ⟨rs.length + 1, u, f⟩)⟩,
        .present (.array ((rs ++ [(⟨rs.length + 1, u, f⟩ : Favorite)]).map Favorite.record)),
        [.access f, .readFavorites,
          .writeFavorites ((rs ++ [(⟨rs.length + 1, u, f⟩ : Favorite)]).map Favorite.record)]⟩ := by
  have hmap := map_stringifyRecord (rs ++ [(⟨rs.length + 1, u, f⟩ : Favorite)])
  have hpushed : rs.map Favorite.record ++
      [(⟨((rs.map Favorite.record).length : Int) + 1, .string u, .string f⟩ : Record)] =
      (rs ++ [(⟨rs.length + 1, u, f⟩ : Favorite)]).map Favorite.record := by
    simp [Favorite.record]
  simp only [postFavorites, falsy_string hu, falsy_string hf, Bool.or_self, Bool.false_eq_true,
    if_false, hfile, Bool.not_true, hstore, fsReadFile, jsonParse, find?_samePair_none hnew, hw,
    fsWriteFile, hpushed, hmap]
  simp [Favorite.record]

theorem postFavorites_duplicate (env : Env) (u f : String) (rs : List Favorite)
    (hu : u ≠ "") (hf : f ≠ "") (hfile : env.htmlAccess f = true)
    (hstore : env.favorites = .present (.array (rs.map Favorite.record)))
    (hdup : ∃ r ∈ rs, Matches u f r) :
    postFavorites env ⟨.string u, .string f⟩ =
      ⟨⟨409, .error "This favorite already exists."⟩, env.favorites,
        [.access f, .readFavorites]⟩ := by
  obtain ⟨r, hr, hm⟩ := hdup
  have hsome : ((rs.map Favorite.record).find? (samePair (.string u) (.string f))).isSome
      = true := by
    rw [List.find?_isSome]
    exact ⟨r.record, List.mem_map_of_mem _ hr, (samePair_record u f r).mpr hm⟩
  obtain ⟨x, hx⟩ := Option.isSome_iff_exists.mp hsome
  simp [postFavorites, falsy_string hu, falsy_string hf, hfile, hstore, fsReadFile, jsonParse, hx]

/-! ## The document handler -/

theorem find?_first_match {docs before after : List Document} {doc : Document} {docId : Int}
    (hsafe : docId.natAbs < 2 ^ 53) (hsplit : docs = before ++ doc :: after)
    (hdoc : doc.id = docId) (hbefore : ∀ d ∈ before, d.id ≠ docId) :
    docs.find? (fun u => jsonNumber u.id == .finite docId) = some doc := by
  have hnone : before.find? (fun u => jsonNumber u.id == .finite docId) = none := by
    rw [List.find?_eq_none]
    intro d hd hd2
    exact hbefore d hd (jsonNumber_eq_safe hsafe (by simpa using hd2))
  rw [hsplit, List.find?_append, hnone]
  simp [List.find?_cons, hdoc, jsonNumber_safe hsafe]

/-- What `GET /document/:id` answers once `parseInt` has produced a safe
integer and the catalog has been read. -/
theorem getDocument_of_parseInt (env : Env) (idParam : String) (docId : Int)
    (docs : List Document) (hid : parseInt idParam = .finite docId)
    (hsafe : docId.natAbs < 2 ^ 53) (hcat : readJsonFile env.documents = .ok docs) :
    ((∀ d ∈ docs, d.id ≠ docId) →
      getDocument env idParam =
        ⟨⟨404, .text "Document not found."⟩, env.favorites, [.readDocuments]⟩) ∧
    (∀ before doc after, docs = before ++ doc :: after → doc.id = docId →
      (∀ d ∈ before, d.id ≠ docId) →
      (env.htmlAccess (htmlFileName env doc) = true →
        getDocument env idParam =
          ⟨env.download (htmlFileName env doc), env.favorites,
            [.readDocuments, .access (htmlFileName env doc)]⟩) ∧
      (env.htmlAccess (htmlFileName env doc) = false →
        getDocument env idParam =
          ⟨⟨404, .text "HTML file not found for the provided document."⟩, env.favorites,
            [.readDocuments, .access (htmlFileName env doc)]⟩)) := by
  refine ⟨fun hno => ?_, fun before doc after hsplit hdoc hbefore => ⟨fun hex => ?_, fun hex => ?_⟩⟩
  · have hnone : docs.find? (fun u => jsonNumber u.id == .finite docId) = none := by
      rw [List.find?_eq_none]
      intro d hd hd2
      exact hno d hd (jsonNumber_eq_safe hsafe (by simpa using hd2))
    simp [getDocument, hid, hcat, hnone]
  · simp [getDocument, hid, hcat, find?_first_match hsafe hsplit hdoc hbefore, fileExists, hex]
  · simp [getDocument, hid, hcat, find?_first_match hsafe hsplit hdoc hbefore, fileExists, hex]

/-- The id is rejected, before any file is read, exactly when `parseInt`
yields `NaN`. -/
theorem getDocument_rejects_iff (env : Env) (idParam : String) :
    (getDocument env idParam).calls = [] ↔ parseInt idParam = .nan := by
  unfold getDocument
  cases hp : parseInt idParam with
  | nan => simp
  | finite docId =>
    simp only [reduceCtorEq, iff_false]
    split
    · simp
    · split
      · simp
      · split <;> simp
  | infinity negative =>
    simp only [reduceCtorEq, iff_false]
    split
    · simp
    · split
      · simp
      · split <;> simp

/-! ## The claims -/

/-- Claim C1, as amended: uniqueness invariant. If the favorites file is one of
the data model and holds no two records with the same `(username, filename)`
pair, then after a `POST /favorites` request whose `username` is a string or
is lacking, or after a `DELETE /favorites` or `GET /favorites/:username`
request with any body or parameter, the file is again one of the data model
and holds no two records with the same pair, whatever the state of the files,
the behaviour of the write and the outcome of the request. -/
theorem handle_preserves_uniqueness (env : Env) (req : Request) (htext : TextUsername req)
    (htyped : StoreTyped env.favorites) (h : StoreUnique env.favorites) :
    StoreTyped (handle env req).favorites ∧ StoreUnique (handle env req).favorites := by
  cases req with
  | post body => exact postFavorites_keeps_store env body htext ⟨htyped, h⟩
  | delete body => exact deleteFavorites_keeps_store env body ⟨htyped, h⟩
  | get username =>
    show StoreTyped (getFavorites env username).favorites ∧
      StoreUnique (getFavorites env username).favorites
    rw [getFavorites_keeps_file]
    exact ⟨htyped, h⟩

/-- Claim C1 at the scenario: bob's favorite is stored and alice posts the
same file. -/
theorem handle_preserves_uniqueness_witness :
    StoreTyped (handle (scenario (fileOf [bobsFavorite]))
        (.post (textBody "alice" "doc_one.html"))).favorites ∧
      StoreUnique (handle (scenario (fileOf [bobsFavorite]))
        (.post (textBody "alice" "doc_one.html"))).favorites :=
  handle_preserves_uniqueness (scenario (fileOf [bobsFavorite]))
    (.post (textBody "alice" "doc_one.html")) (Or.inl ⟨"alice", rfl⟩)
    (fun rs hrs => ⟨[bobsFavorite], by
      simp only [scenario, fileOf, File.present.injEq, Content.array.injEq] at hrs
      exact hrs.symm⟩)
    (fun rs hrs => by
      simp only [scenario, fileOf, File.present.injEq, Content.array.injEq] at hrs
      subst hrs
      decide)

/-- Claim C1 as stated fails for a body whose `username` is an array: it is
not lacking and is never `===` a stored value, so two `POST /favorites` with
the username `["bob"]` are both answered 201 and the file, empty before, then
holds the same pair twice. -/
theorem array_username_stored_twice :
    StoreUnique (scenario (fileOf [])).favorites ∧
    (postFavorites (scenario (fileOf []))
      ⟨.composite "[\"bob\"]", .string "doc_one.html"⟩).response.status = 201 ∧
    (postFavorites ((scenario (fileOf [])).after
        (postFavorites (scenario (fileOf []))
          ⟨.composite "[\"bob\"]", .string "doc_one.html"⟩) .succeeds)
      ⟨.composite "[\"bob\"]", .string "doc_one.html"⟩).response.status = 201 ∧
    ¬ StoreUnique (postFavorites ((scenario (fileOf [])).after
        (postFavorites (scenario (fileOf []))
          ⟨.composite "[\"bob\"]", .string "doc_one.html"⟩) .succeeds)
      ⟨.composite "[\"bob\"]", .string "doc_one.html"⟩).favorites := by
  refine ⟨?_, by decide, by decide, ?_⟩
  · intro rs hrs
    simp only [scenario, fileOf, List.map_nil, File.present.injEq, Content.array.injEq] at hrs
    subst hrs
    decide
  · intro hunique
    have hpairs := hunique
      [⟨1, .composite "[\"bob\"]", .string "doc_one.html"⟩,
        ⟨2, .composite "[\"bob\"]", .string "doc_one.html"⟩] (by decide)
    revert hpairs
    decide

/-- Claim C2, as amended: uniqueness enforcement. For a non-empty username and
filename whose target file exists and a favorites file holding a collection
without that pair, when the write of the first call succeeds, two
`POST /favorites` calls in succession answer 201 and then 409, and the
collection stored afterwards holds exactly one record matching the pair. -/
theorem post_twice_conflict (env : Env) (u f : String) (rs : List Favorite) (w : WriteBehaviour)
    (hu : u ≠ "") (hf : f ≠ "") (hfile : env.htmlAccess f = true)
    (hstore : env.favorites = .present (.array (rs.map Favorite.record)))
    (hnew : ∀ r ∈ rs, ¬ Matches u f r) (hw : env.write = .succeeds) :
    (postFavorites env ⟨.string u, .string f⟩).response.status = 201 ∧
    (postFavorites (env.after (postFavorites env ⟨.string u, .string f⟩) w)
      ⟨.string u, .string f⟩).response = ⟨409, .error "This favorite already exists."⟩ ∧
    ∃ kept : List Favorite,
      (postFavorites (env.after (postFavorites env ⟨.string u, .string f⟩) w)
        ⟨.string u, .string f⟩).favorites = .present (.array (kept.map Favorite.record)) ∧
      (kept.filter (fun r => decide (Matches u f r))).length = 1 := by
  have hfirst := postFavorites_fresh env u f rs hu hf hfile hstore hnew hw
  have hsecond := postFavorites_duplicate (env.after (postFavorites env ⟨.string u, .string f⟩) w)
    u f (rs ++ [⟨rs.length + 1, u, f⟩]) hu hf hfile (by rw [hfirst]; rfl)
    ⟨⟨rs.length + 1, u, f⟩, by simp, rfl, rfl⟩
  refine ⟨by rw [hfirst], by rw [hsecond], rs ++ [⟨rs.length + 1, u, f⟩], ?_, ?_⟩
  · rw [hsecond, hfirst]; rfl
  · have hnone : rs.filter (fun r => decide (Matches u f r)) = [] := by
      rw [List.filter_eq_nil_iff]
      intro r hr
      simpa using hnew r hr
    rw [List.filter_append, hnone]
    simp [Matches]

/-- Claim C2 at the scenario: the favorites file holds an empty array and bob
posts `doc_one.html` twice. -/
theorem post_twice_conflict_witness :
    (postFavorites (scenario (fileOf [])) (textBody "bob" "doc_one.html")).response.status = 201 ∧
    (postFavorites ((scenario (fileOf [])).after
        (postFavorites (scenario (fileOf [])) (textBody "bob" "doc_one.html")) .succeeds)
      (textBody "bob" "doc_one.html")).response = ⟨409, .error "This favorite already exists."⟩ ∧
    ∃ kept : List Favorite,
      (postFavorites ((scenario (fileOf [])).after
          (postFavorites (scenario (fileOf [])) (textBody "bob" "doc_one.html")) .succeeds)
        (textBody "bob" "doc_one.html")).favorites = .present (.array (kept.map Favorite.record)) ∧
      (kept.filter (fun r => decide (Matches "bob" "doc_one.html" r))).length = 1 :=
  post_twice_conflict (scenario (fileOf [])) "bob" "doc_one.html" [] .succeeds
    (by decide) (by decide) (by decide) rfl (by simp) rfl

/-- Claim C2 as stated fails when the favorites file is read-only: the first
`POST /favorites` answers 500 and stores nothing, so the same request, once
the file can be written, answers 201 and not 409. -/
theorem post_twice_write_failure :
    (postFavorites (readOnly (fileOf [])) (textBody "bob" "doc_one.html")).response =
      ⟨500, .error "An error occurred while writing the favorites file."⟩ ∧
    (postFavorites ((readOnly (fileOf [])).after
        (postFavorites (readOnly (fileOf [])) (textBody "bob" "doc_one.html")) .succeeds)
      (textBody "bob" "doc_one.html")).response.status = 201 := by
  decide

/-- Claim C3, evaluated on the code: with the favorites file missing, a valid
`POST /favorites` for an existing target file answers 500 "Error reading
favorites file." and stores nothing, while `GET /favorites/:username` and
`DELETE /favorites` read the same missing file as an empty collection. -/
theorem post_missing_file_is_error :
    postFavorites (scenario .absent) (textBody "bob" "doc_one.html") =
      ⟨⟨500, .error "Error reading favorites file."⟩, .absent,
        [.access "doc_one.html", .readFavorites]⟩ ∧
    (getFavorites (scenario .absent) "bob").response =
      ⟨404, .message "No favorites found for user: bob"⟩ ∧
    (deleteFavorites (scenario .absent) (textBody "bob" "doc_one.html")).response =
      ⟨404, .error "Favorite not found."⟩ := by
  decide

/-- Claim C4: deletion precondition. For a non-empty username and filename and
a stored collection without a record of exactly that pair, `DELETE /favorites`
answers 404 "Favorite not found.", its only file-system call is the read of
the favorites file, and the file is left as it was. -/
theorem delete_absent_pair_not_found (env : Env) (u f : String) (rs : List Favorite)
    (hu : u ≠ "") (hf : f ≠ "")
    (hread : readJsonFile env.favorites = .ok (rs.map Favorite.record))
    (hno : ∀ r ∈ rs, ¬ Matches u f r) :
    deleteFavorites env ⟨.string u, .string f⟩ =
      ⟨⟨404, .error "Favorite not found."⟩, env.favorites, [.readFavorites]⟩ := by
  simp [deleteFavorites, falsy_string hu, falsy_string hf, hread, findIdx?_samePair_none hno]

/-- Claim C4 at the scenario: bob's favorite is stored and alice deletes
`missing.html`. -/
theorem delete_absent_pair_not_found_witness :
    deleteFavorites (scenario (fileOf [bobsFavorite])) (textBody "alice" "missing.html") =
      ⟨⟨404, .error "Favorite not found."⟩, fileOf [bobsFavorite], [.readFavorites]⟩ :=
  delete_absent_pair_not_found (scenario (fileOf [bobsFavorite])) "alice"
    "missing.html" [bobsFavorite] (by decide) (by decide) rfl (by decide)

/-- Claim C5, as amended: success of `POST /favorites`. For a non-empty
username `u` and filename `f` whose target file exists and a readable stored
collection `rs` without the pair, when the write of the favorites file
succeeds, the answer is 201 with the record `(length rs + 1, u, f)` and the
file then holds `rs` followed by that record. -/
theorem post_success (env : Env) (u f : String) (rs : List Favorite)
    (hu : u ≠ "") (hf : f ≠ "") (hfile : env.htmlAccess f = true)
    (hstore : env.favorites = .present (.array (rs.map Favorite.record)))
    (hnew : ∀ r ∈ rs, ¬ Matches u f r) (hw : env.write = .succeeds) :
    postFavorites env ⟨.string u, .string f⟩ =
      ⟨⟨201, .created "Favorite added successfully!"
          (Favorite.record ⟨rs.length + 1, u, f⟩)⟩,
        .present (.array ((rs ++ [(⟨rs.length + 1, u, f⟩ : Favorite)]).map Favorite.record)),
        [.access f, .readFavorites,
          .writeFavorites ((rs ++ [(⟨rs.length + 1, u, f⟩ : Favorite)]).map Favorite.record)]⟩ :=
  postFavorites_fresh env u f rs hu hf hfile hstore hnew hw

/-- Claim C5 at the scenario: bob's favorite is stored and alice posts the
same file, which becomes record 2. -/
theorem post_success_witness :
    postFavorites (scenario (fileOf [bobsFavorite])) (textBody "alice" "doc_one.html") =
      ⟨⟨201, .created "Favorite added successfully!"
          (Favorite.record ⟨2, "alice", "doc_one.html"⟩)⟩,
        fileOf [bobsFavorite, ⟨2, "alice", "doc_one.html"⟩],
        [.access "doc_one.html", .readFavorites,
          .writeFavorites
            ([bobsFavorite, ⟨2, "alice", "doc_one.html"⟩].map Favorite.record)]⟩ :=
  post_success (scenario (fileOf [bobsFavorite])) "alice" "doc_one.html"
    [bobsFavorite] (by decide) (by decide) (by decide) rfl (by decide) rfl

/-- Claim C5 as stated fails when the favorites file is read-only: the answer
is 500, not 201, and the stored collection is not extended. -/
theorem post_write_failure :
    postFavorites (readOnly (fileOf [bobsFavorite])) (textBody "alice" "doc_one.html") =
      ⟨⟨500, .error "An error occurred while writing the favorites file."⟩,
        fileOf [bobsFavorite],
        [.access "doc_one.html", .readFavorites,
          .writeFavorites
            ([bobsFavorite, ⟨2, "alice", "doc_one.html"⟩].map Favorite.record)]⟩ := by
  decide

/-- Claim C6, as amended: success of `DELETE /favorites`. For a non-empty
username and filename and a stored collection `rs` with a record of exactly
that pair, when the write of the favorites file succeeds, the answer is 200
and the file then holds `rs` without its first matching record: every record
before it and every record after it (a later matching one included) is kept
in order, and the length drops by one. -/
theorem delete_removes_first_match (env : Env) (u f : String) (rs : List Favorite)
    (hu : u ≠ "") (hf : f ≠ "")
    (hstore : env.favorites = .present (.array (rs.map Favorite.record)))
    (hex : ∃ r ∈ rs, Matches u f r) (hw : env.write = .succeeds) :
    ∃ before target after,
      rs = before ++ target :: after ∧ Matches u f target ∧
      (∀ r ∈ before, ¬ Matches u f r) ∧
      deleteFavorites env ⟨.string u, .string f⟩ =
        ⟨⟨200, .message "Favorite deleted successfully."⟩,
          .present (.array ((before ++ after).map Favorite.record)),
          [.readFavorites, .writeFavorites ((before ++ after).map Favorite.record)]⟩ ∧
      (before ++ after).length = rs.length - 1 := by
  have hex2 : ∃ r ∈ rs, (samePair (.string u) (.string f) ∘ Favorite.record) r = true := by
    obtain ⟨r, hr, hm⟩ := hex
    exact ⟨r, hr, (samePair_record u f r).mpr hm⟩
  obtain ⟨before, target, after, hsplit, htarget, hbefore, hidx, herase⟩ :=
    findIdx?_split (samePair (.string u) (.string f) ∘ Favorite.record) rs hex2
  refine ⟨before, target, after, hsplit, (samePair_record u f target).mp htarget, ?_, ?_, ?_⟩
  · intro r hr hm
    have := hbefore r hr
    rw [Function.comp_apply, (samePair_record u f r).mpr hm] at this
    exact Bool.noConfusion this
  · have hmap := map_stringifyRecord (before ++ after)
    simp only [deleteFavorites, falsy_string hu, falsy_string hf, Bool.or_self,
      Bool.false_eq_true, if_false, hstore, readJsonFile, fsReadFile, jsonParse, bind,
      Except.bind, List.findIdx?_map, hidx, eraseIdx_map, herase, hw, writeJsonFile, fsWriteFile,
      hmap]
  · rw [hsplit]; simp

/-- Claim C6 at the scenario: bob's favorite is the only record and bob
deletes it. -/
theorem delete_removes_first_match_witness :
    ∃ before target after,
      [bobsFavorite] = before ++ target :: after ∧ Matches "bob" "doc_one.html" target ∧
      (∀ r ∈ before, ¬ Matches "bob" "doc_one.html" r) ∧
      deleteFavorites (scenario (fileOf [bobsFavorite])) ⟨.string "bob", .string "doc_one.html"⟩ =
        ⟨⟨200, .message "Favorite deleted successfully."⟩,
          .present (.array ((before ++ after).map Favorite.record)),
          [.readFavorites, .writeFavorites ((before ++ after).map Favorite.record)]⟩ ∧
      (before ++ after).length = [bobsFavorite].length - 1 :=
  delete_removes_first_match (scenario (fileOf [bobsFavorite])) "bob" "doc_one.html"
    [bobsFavorite] (by decide) (by decide) rfl ⟨bobsFavorite, by simp, by decide⟩ rfl

/-- Claim C6 as stated fails when the favorites file is read-only: the answer
is 500, not 200, and the matching record is still stored. -/
theorem delete_write_failure :
    deleteFavorites (readOnly (fileOf [bobsFavorite])) (textBody "bob" "doc_one.html") =
      ⟨⟨500, .error "An error occurred while deleting the favorite."⟩,
        fileOf [bobsFavorite], [.readFavorites, .writeFavorites []]⟩ := by
  decide

/-- Claim C7, evaluated on the code: the ids `12abc` and `1.5` are not decimal
representations of an integer, yet `GET /document/12abc` is answered as
`GET /document/12` (200 with the download when document 12 exists) and
`GET /document/1.5` as `GET /document/1` (404 when the catalog has no
document 1); neither is answered 400. The id `abc` is answered 400. -/
theorem getDocument_reads_leading_digits :
    (getDocument (library [⟨12, "Doc One"⟩]) "12abc").response =
      ⟨200, .download "doc_one.html"⟩ ∧
    (getDocument (library [⟨12, "Doc One"⟩]) "1.5").response =
      ⟨404, .text "Document not found."⟩ ∧
    (getDocument (library [⟨12, "Doc One"⟩]) "abc").response =
      ⟨400, .text "Invalid document ID."⟩ := by
  decide

/-- Claim C8, as amended: `GET /document/:id` for a readable catalog and an
integer id below `2 ^ 53` in magnitude. If no document has the id the answer
is 404. Otherwise, for the first document with the id, the file name is its
name with every maximal run of white space replaced by one underscore,
lower-cased, followed by `.html`; the answer is 404 when that file does not
exist in the HTML directory, and otherwise it is the answer of Express to
`res.download` of that file. -/
theorem getDocument_integer_id (env : Env) (docId : Int) (docs : List Document)
    (hsafe : docId.natAbs < 2 ^ 53) (hcat : env.documents = .present (.array docs)) :
    ((∀ d ∈ docs, d.id ≠ docId) →
      (getDocument env (decimal docId)).response = ⟨404, .text "Document not found."⟩) ∧
    (∀ before doc after, docs = before ++ doc :: after → doc.id = docId →
      (∀ d ∈ before, d.id ≠ docId) →
      htmlFileName env doc = env.toLowerCase (collapseRuns doc.name) ++ ".html" ∧
      (env.htmlAccess (env.toLowerCase (collapseRuns doc.name) ++ ".html") = true →
        (getDocument env (decimal docId)).response =
          env.download (env.toLowerCase (collapseRuns doc.name) ++ ".html")) ∧
      (env.htmlAccess (env.toLowerCase (collapseRuns doc.name) ++ ".html") = false →
        (getDocument env (decimal docId)).response =
          ⟨404, .text "HTML file not found for the provided document."⟩)) := by
  have hread : readJsonFile env.documents = .ok docs := by
    simp [readJsonFile, fsReadFile, jsonParse, hcat, bind, Except.bind]
  have hmain := getDocument_of_parseInt env (decimal docId) docId docs
    (parseInt_decimal_safe hsafe) hsafe hread
  refine ⟨fun hno => by rw [hmain.1 hno], fun before doc after hsplit hdoc hbefore => ?_⟩
  have hname : htmlFileName env doc = env.toLowerCase (collapseRuns doc.name) ++ ".html" := by
    rw [htmlFileName, replaceWhitespace_eq_collapseRuns]
  obtain ⟨hyes, hno⟩ := hmain.2 before doc after hsplit hdoc hbefore
  rw [hname] at hyes hno
  exact ⟨hname, fun hex => by rw [hyes hex], fun hex => by rw [hno hex]⟩

/-- Claim C8 at the scenario: `Doc One` gives `doc_one.html`, `GET /document/1`
is answered with the download of that file, which Express serves with 200,
and `GET /document/2` is answered 404. -/
theorem getDocument_integer_id_witness :
    asciiLower (collapseRuns "Doc One") ++ ".html" = "doc_one.html" ∧
    (getDocument (scenario .absent) (decimal 1)).response = ⟨200, .download "doc_one.html"⟩ ∧
    (getDocument (scenario .absent) (decimal 2)).response = ⟨404, .text "Document not found."⟩ :=
  ⟨by decide,
    (((getDocument_integer_id (scenario .absent) 1 [⟨1, "Doc One"⟩] (by decide) rfl).2 []
      ⟨1, "Doc One"⟩ [] rfl rfl (by simp)).2.1 (by decide)).trans (by decide),
    (getDocument_integer_id (scenario .absent) 2 [⟨1, "Doc One"⟩] (by decide) rfl).1 (by decide)⟩

/-- Claim C8 as stated fails in two places. The id `9007199254740993` is read
as the double `9007199254740992`: no document has the id, yet the document
with id `9007199254740992` is served. And a file that exists is not always
answered 200: for the document named `.hidden` the file `.hidden.html` exists
and Express answers its download with 404. -/
theorem getDocument_rounds_and_hides :
    (∀ d ∈ [(⟨9007199254740992, "Doc One"⟩ : Document)], d.id ≠ 9007199254740993) ∧
    (getDocument (library [⟨9007199254740992, "Doc One"⟩])
      (decimal 9007199254740993)).response = ⟨200, .download "doc_one.html"⟩ ∧
    (library [⟨1, ".hidden"⟩]).htmlAccess ".hidden.html" = true ∧
    (getDocument (library [⟨1, ".hidden"⟩]) (decimal 1)).response = ⟨404, .expressError⟩ := by
  decide

/-- Claim C9: `GET /favorites/:username`. When the favorites file holds a
collection `rs`, the answer is 200 with the records of `rs` whose username is
exactly `u`, in stored order, if there is one, and 404 "No favorites found for
user: u" if there is none; a missing file is read as the empty collection and
answered 404; a file that cannot be read and a file whose content is not JSON
fail to load and are answered 500. -/
theorem getFavorites_result (env : Env) (u : String) :
    (∀ rs, env.favorites = .present (.array rs) →
      ((∃ r ∈ rs, r.username = .string u) →
        getFavorites env u =
          ⟨⟨200, .favorites (rs.filter (fun r => decide (r.username = .string u)))⟩,
            env.favorites, [.readFavorites]⟩) ∧
      ((∀ r ∈ rs, r.username ≠ .string u) →
        getFavorites env u =
          ⟨⟨404, .message ("No favorites found for user: " ++ u)⟩, env.favorites,
            [.readFavorites]⟩)) ∧
    (env.favorites = .absent →
      getFavorites env u =
        ⟨⟨404, .message ("No favorites found for user: " ++ u)⟩, env.favorites,
          [.readFavorites]⟩) ∧
    (env.favorites = .unreadable →
      getFavorites env u =
        ⟨⟨500, .error "An error occurred while retrieving favorites."⟩, env.favorites,
          [.readFavorites]⟩) ∧
    (env.favorites = .present .invalid →
      getFavorites env u =
        ⟨⟨500, .error "An error occurred while retrieving favorites."⟩, env.favorites,
          [.readFavorites]⟩) := by
  refine ⟨fun rs hstore => ⟨fun hex => ?_, fun hno => ?_⟩, fun habsent => ?_,
    fun hlocked => ?_, fun hbad => ?_⟩
  · obtain ⟨r, hr, hru⟩ := hex
    have hfilter : rs.filter (fun fav => strictEq fav.username (.string u)) =
        rs.filter (fun r => decide (r.username = .string u)) :=
      List.filter_congr (fun x _ => by
        rw [Bool.eq_iff_iff, strictEq_string, decide_eq_true_eq])
    have hne : rs.filter (fun r => decide (r.username = .string u)) ≠ [] := by
      intro hnil
      rw [List.filter_eq_nil_iff] at hnil
      exact hnil r hr (by simpa using hru)
    simp [getFavorites, hstore, readJsonFile, fsReadFile, jsonParse, bind, Except.bind, hfilter,
      hne]
  · have hnil : rs.filter (fun fav => strictEq fav.username (.string u)) = [] := by
      rw [List.filter_eq_nil_iff]
      intro r hr hs
      exact hno r hr ((strictEq_string _ _).mp hs)
    simp [getFavorites, hstore, readJsonFile, fsReadFile, jsonParse, bind, Except.bind, hnil]
  · simp [getFavorites, habsent, readJsonFile, fsReadFile, bind, Except.bind]
  · simp [getFavorites, hlocked, readJsonFile, fsReadFile, bind, Except.bind]
  · simp [getFavorites, hbad, readJsonFile, fsReadFile, jsonParse, bind, Except.bind]

/-- Claim C9 at the scenario: bob's favorite is listed for `bob`, nothing is
found for `Bob` nor in a missing file, and a file that cannot be read or is
not JSON is answered 500. -/
theorem getFavorites_result_witness :
    (getFavorites (scenario (fileOf [bobsFavorite, ⟨2, "alice", "doc_one.html"⟩]))
        "bob").response = ⟨200, .favorites [bobsFavorite.record]⟩ ∧
    (getFavorites (scenario (fileOf [bobsFavorite])) "Bob").response =
      ⟨404, .message "No favorites found for user: Bob"⟩ ∧
    (getFavorites (scenario .absent) "bob").response =
      ⟨404, .message "No favorites found for user: bob"⟩ ∧
    (getFavorites (scenario .unreadable) "bob").response =
      ⟨500, .error "An error occurred while retrieving favorites."⟩ ∧
    (getFavorites (scenario (.present .invalid)) "bob").response =
      ⟨500, .error "An error occurred while retrieving favorites."⟩ :=
  ⟨by
      rw [((getFavorites_result
        (scenario (fileOf [bobsFavorite, ⟨2, "alice", "doc_one.html"⟩])) "bob").1
        ([bobsFavorite, ⟨2, "alice", "doc_one.html"⟩].map Favorite.record) rfl).1
        ⟨bobsFavorite.record, by simp, rfl⟩]
      decide,
    by
      rw [((getFavorites_result (scenario (fileOf [bobsFavorite])) "Bob").1
        ([bobsFavorite].map Favorite.record) rfl).2 (by decide)]
      decide,
    by rw [(getFavorites_result (scenario .absent) "bob").2.1 rfl]; decide,
    by rw [(getFavorites_result (scenario .unreadable) "bob").2.2.1 rfl],
    by rw [(getFavorites_result (scenario (.present .invalid)) "bob").2.2.2 rfl]⟩

/-- Claim C10: validation precedes storage. When the `username` or the
`filename` of the body of a `POST /favorites` or `DELETE /favorites` request
is lacking (missing, `null`, `false`, zero or the empty string), the answer is
400 "Username and filename are required.", no file-system call is made and
the favorites file is left as it was, whatever the state of the files. -/
theorem validation_precedes_storage (env : Env) (body : FavoriteBody)
    (h : Lacking body.username ∨ Lacking body.filename) :
    postFavorites env body =
        ⟨⟨400, .error "Username and filename are required."⟩, env.favorites, []⟩ ∧
      deleteFavorites env body =
        ⟨⟨400, .error "Username and filename are required."⟩, env.favorites, []⟩ := by
  have hf : (falsy body.username || falsy body.filename) = true := by
    rw [Bool.or_eq_true, falsy_iff_lacking, falsy_iff_lacking]
    exact h
  simp [postFavorites, deleteFavorites, hf]

/-- Claim C10 at the scenario: the body holds a username only and the
favorites file cannot be read. -/
theorem validation_precedes_storage_witness :
    postFavorites (scenario .unreadable) ⟨.string "user1", .undefined⟩ =
        ⟨⟨400, .error "Username and filename are required."⟩, .unreadable, []⟩ ∧
      deleteFavorites (scenario .unreadable) ⟨.string "user1", .undefined⟩ =
        ⟨⟨400, .error "Username and filename are required."⟩, .unreadable, []⟩ :=
  validation_precedes_storage (scenario .unreadable) ⟨.string "user1", .undefined⟩
    (Or.inr (Or.inl rfl))

end JsauApiserver
